import Mathlib

/-!
Shallow embedding of the snake game in `src/main.js`.

Coordinates are integers (JS numbers used only at integer values by the game
logic).  Directions are the integers 0..3 exactly as in the source
(`kUp = 0`, `kDown = 1`, `kLeft = 2`, `kRight = 3`), so that the source's bit
tricks (`direction ^ 1` for the opposite direction, `direction >> 1` for the
axis) can be embedded literally with `^^^` and `>>>`.

`Math.random()` is modelled as an externally supplied rational in `[0, 1)`;
the rejection loop in `updateFood` consumes a finite list of such samples and
returns `none` when the list is exhausted (modelling nontermination of the
unbounded retry loop).  DOM rendering (`draw`, `drawFrame`, `updateScores`)
and event wiring are external I/O and are not part of the state model; the
`alert('Game Over')` call is modelled by counting emitted notifications.
-/

namespace SnakeGame

/-! Global constants (src/main.js lines 5-22). -/

def rows : Int := 30
def cols : Int := 30

def snakeHeadColor : String := "orange"
def snakeBodyColor : String := "green"
def foodColor : String := "red"

def kUp : Nat := 0
def kDown : Nat := 1
def kLeft : Nat := 2
def kRight : Nat := 3

/-- Embeds the array `kDx = [0, 0, -1, 1]` indexed by direction. -/
def kDx (d : Nat) : Int :=
  if d = 2 then -1 else if d = 3 then 1 else 0

/-- Embeds the array `kDy = [-1, 1, 0, 0]` indexed by direction. -/
def kDy (d : Nat) : Int :=
  if d = 0 then -1 else if d = 1 then 1 else 0

/-! Helper functions (src/main.js lines 29-31). -/

/-- Embeds `random(min, max) = Math.floor(Math.random() * (max - min + 1)) + min`,
with the `Math.random()` result `q ∈ [0, 1)` passed in explicitly. -/
def random (min max : Int) (q : ℚ) : Int :=
  Int.floor (q * ((max : ℚ) - (min : ℚ) + 1)) + min

/-! Entity model (src/main.js lines 38-55). -/

structure Block where
  x : Int
  y : Int
  color : String
deriving Repr, DecidableEq

def Block.pos (b : Block) : Int × Int := (b.x, b.y)

/-- Embeds `new Food(x, y)`: a block in the food color. -/
def mkFood (x y : Int) : Block := ⟨x, y, foodColor⟩

/-! Snake (src/main.js lines 57-164). -/

structure Snake where
  direction : Nat
  body : List Block
  lastMove : Nat
deriving Repr, DecidableEq

/-- The `Snake` constructor: head at `(x, y)` in the head color, one trailing
segment one step along the opposite (`direction ^ 1`) direction in the body
color; `#lastMove` starts as the initial direction. -/
def Snake.init (x y : Int) (direction : Nat) : Snake :=
  let verse := direction ^^^ 1
  { direction := direction
    body := [⟨x, y, snakeHeadColor⟩, ⟨x + kDx verse, y + kDy verse, snakeBodyColor⟩]
    lastMove := direction }

/-- Embeds `next()`: head position plus the unit delta of the current direction.
The body is never empty in any state the program creates (length is always
at least 2); on an empty body the JS would fault, here we return the delta
from the origin as a junk value. -/
def Snake.next (s : Snake) : Int × Int :=
  match s.body with
  | [] => (kDx s.direction, kDy s.direction)
  | h :: _ => (h.x + kDx s.direction, h.y + kDy s.direction)

/-- Embeds `checkMove()`: false when `next()` is out of bounds, false when `next()`
matches a body segment at index 4 or later, true otherwise. -/
def Snake.checkMove (s : Snake) : Bool :=
  let x := s.next.1
  let y := s.next.2
  if x < 0 || x ≥ rows || y < 0 || y ≥ cols then false
  else !((s.body.drop 4).any fun b => b.x == x && b.y == y)

/-- Embeds `eatFood(food)`: true iff `next()` equals the food position. -/
def Snake.eatFood (s : Snake) (food : Block) : Bool :=
  s.next.1 == food.x && s.next.2 == food.y

/-- Embeds `extend()`: recolor the current head to the body color, push a new head
block at `next()` in the head color, and commit the current direction as
`#lastMove`. -/
def Snake.extend (s : Snake) : Snake :=
  let newHead : Block := ⟨s.next.1, s.next.2, snakeHeadColor⟩
  let body :=
    match s.body with
    | [] => [newHead]
    | h :: t => newHead :: { h with color := snakeBodyColor } :: t
  { direction := s.direction, body := body, lastMove := s.direction }

/-- Embeds `move()`: `extend()` followed by `this.body.pop()` (drop the tail). -/
def Snake.move (s : Snake) : Snake :=
  let s := s.extend
  { s with body := s.body.dropLast }

/-- Embeds `#updateDirection(direction)`: no-op when the requested direction shares
an axis (`>> 1`) with the last committed move; otherwise set the direction. -/
def Snake.updateDirection (s : Snake) (direction : Nat) : Snake :=
  if direction >>> 1 == s.lastMove >>> 1 then s
  else { s with direction := direction }

/-! Food placement (src/main.js lines 185-202). -/

/-- Embeds `blockExist(x, y)`: true iff `(x, y)` is the food cell or any snake
body cell. -/
def blockExist (food : Block) (snakeBody : List Block) (x y : Int) : Bool :=
  (x == food.x && y == food.y) || snakeBody.any fun b => b.x == x && b.y == y

/-- Embeds `updateFood()`: repeatedly sample `x = random(0, rows-1)`,
`y = random(0, cols-1)` while `blockExist(x, y)`; then move the food there.
Each iteration consumes one pair of `Math.random()` samples; `none` models
exhausting the supply (the JS loop not terminating). -/
def updateFood (food : Block) (snakeBody : List Block) :
    List (ℚ × ℚ) → Option Block
  | [] => none
  | (qx, qy) :: rest =>
    let x := random 0 (rows - 1) qx
    let y := random 0 (cols - 1) qy
    if blockExist food snakeBody x y then updateFood food snakeBody rest
    else some { food with x := x, y := y }

/-! Game state and loop (src/main.js lines 166-254). -/

inductive GameStatus
  | run
  | pause
  | ended
deriving Repr, DecidableEq

structure GameState where
  snake : Snake
  food : Block
  start : Option Nat
  prevTime : Nat
  gameStatus : GameStatus
  score : Nat
  highestScore : Nat
deriving Repr, DecidableEq

/-- Embeds `resetGame()`: clear the start baseline, reset the score, recreate the
snake at `(10, 10)` facing right and the food at `(15, 15)`. -/
def resetGame (gs : GameState) : GameState :=
  { gs with
    start := none
    score := 0
    snake := Snake.init 10 10 kRight
    food := mkFood 15 15 }

/-- The state after the initial `main()` / `initGame()` run: globals start at
`gameStatus = 'end'`, `score = highestScore = 0`, then `resetGame()` runs. -/
def initState : GameState :=
  resetGame
    { snake := Snake.init 10 10 kRight
      food := mkFood 15 15
      start := none
      prevTime := 0
      gameStatus := .ended
      score := 0
      highestScore := 0 }

/-- Result of running the tick loop inside one frame: the new state, how many
game-over alerts were emitted, how many ticks were processed, and whether the
loop body hit the early `return` in the game-over branch. -/
structure TickResult where
  state : GameState
  alerts : Nat
  processed : Nat
  early : Bool
deriving Repr, DecidableEq

/-- The state change of one eat-branch tick: `++score`,
`highestScore = Math.max(score, highestScore)` (with the score already
incremented), the relocated food, and `snake.extend()`. -/
def eatStep (gs : GameState) (food : Block) : GameState :=
  { gs with
    score := gs.score + 1
    highestScore := Nat.max (gs.score + 1) gs.highestScore
    food := food
    snake := gs.snake.extend }

/-- The state change of one move-branch tick: `snake.move()`. -/
def moveStep (gs : GameState) : GameState :=
  { gs with snake := gs.snake.move }

/-- The body of `for (let i = 0; i < ticks; ++i) { ... }` in `loop`:
eat branch (score, highest score, food relocation, `extend()`), move branch
(`move()`), or game-over branch (`gameStatus = 'end'; alert(...); return`).
`samples` supplies one `Math.random()` pair list per tick for `updateFood`;
`none` propagates a non-terminating food relocation. -/
def runTicks (gs : GameState) : Nat → List (List (ℚ × ℚ)) → Option TickResult
  | 0, _ => some ⟨gs, 0, 0, false⟩
  | n + 1, samples =>
    if gs.snake.eatFood gs.food then
      match updateFood gs.food gs.snake.body (samples.headD []) with
      | none => none
      | some food =>
        match runTicks (eatStep gs food) n samples.tail with
        | none => none
        | some r => some { r with processed := r.processed + 1 }
    else if gs.snake.checkMove then
      match runTicks (moveStep gs) n samples.tail with
      | none => none
      | some r => some { r with processed := r.processed + 1 }
    else
      some ⟨{ gs with gameStatus := .ended }, 1, 1, true⟩

/-- Result of one `loop(time)` frame callback: the new state, alerts emitted,
and whether `requestAnimationFrame(loop)` was called again. -/
structure FrameResult where
  state : GameState
  alerts : Nat
  processed : Nat
  scheduled : Bool
deriving Repr, DecidableEq

/-- Embeds `if (start === undefined) start = prevTime = time;`. -/
def frameBase (gs : GameState) (time : Nat) : GameState :=
  if gs.start = none then { gs with start := some time, prevTime := time }
  else gs

/-- Embeds `loop(time)`: return immediately in `end`/`pause` status; set the start
baseline on the first frame; process `floor((time - prevTime) / 250)` ticks;
advance `prevTime` when at least one tick fired, unless the game-over branch
returned early; reschedule unless that early return happened. -/
def loop (gs : GameState) (time : Nat) (samples : List (List (ℚ × ℚ))) :
    Option FrameResult :=
  if gs.gameStatus = .ended ∨ gs.gameStatus = .pause then
    some ⟨gs, 0, 0, false⟩
  else
    match runTicks (frameBase gs time)
        ((time - (frameBase gs time).prevTime) / 250) samples with
    | none => none
    | some r =>
      if r.early then some ⟨r.state, r.alerts, r.processed, false⟩
      else if (time - (frameBase gs time).prevTime) / 250 ≥ 1 then
        some ⟨{ r.state with prevTime := time }, r.alerts, r.processed, true⟩
      else some ⟨r.state, r.alerts, r.processed, true⟩

/-! Button handlers (src/main.js lines 256-299). -/

def pressStart (gs : GameState) : GameState :=
  if gs.gameStatus ≠ .ended then gs
  else { resetGame gs with gameStatus := .run }

def pressPause (gs : GameState) : GameState :=
  if gs.gameStatus ≠ .run then gs
  else { gs with gameStatus := .pause, start := none }

def pressResume (gs : GameState) : GameState :=
  if gs.gameStatus ≠ .pause then gs
  else { gs with gameStatus := .run }

def pressRestart (gs : GameState) : GameState :=
  if gs.gameStatus ≠ .run then gs
  else resetGame gs

def pressEnd (gs : GameState) : GameState :=
  if gs.gameStatus = .ended then gs
  else resetGame { gs with gameStatus := .ended }

/-- One externally triggered operation on the global game state. -/
inductive GameOp
  | frame (time : Nat) (samples : List (List (ℚ × ℚ)))
  | start
  | pause
  | resume
  | restart
  | stop

def step (gs : GameState) : GameOp → Option GameState
  | .frame t samples => (loop gs t samples).map FrameResult.state
  | .start => some (pressStart gs)
  | .pause => some (pressPause gs)
  | .resume => some (pressResume gs)
  | .restart => some (pressRestart gs)
  | .stop => some (pressEnd gs)

/-- Run a sequence of operations from a state. -/
def steps (gs : GameState) : List GameOp → Option GameState
  | [] => some gs
  | op :: ops =>
    match step gs op with
    | none => none
    | some gs => steps gs ops


/-! Derived predicates used by the verification. -/

/-- The food cell is not occupied by any snake body segment. -/
def foodFreeOn (food : Block) (snakeBody : List Block) : Prop :=
  ∀ b ∈ snakeBody, ¬(b.x = food.x ∧ b.y = food.y)

instance (food : Block) (snakeBody : List Block) :
    Decidable (foodFreeOn food snakeBody) :=
  List.decidableBAll _ snakeBody

/-- The game-state level food/snake disjointness invariant. -/
def GameState.foodFree (gs : GameState) : Prop :=
  foodFreeOn gs.food gs.snake.body

instance (gs : GameState) : Decidable gs.foodFree :=
  inferInstanceAs (Decidable (foodFreeOn gs.food gs.snake.body))

/-- Multiset of cells occupied by a list of blocks. -/
def posMultiset (body : List Block) : Multiset (Int × Int) :=
  (body.map Block.pos : List (Int × Int))

/-- Two cells are grid-adjacent: they differ by one unit step in exactly one
coordinate. -/
def adjacent (p q : Int × Int) : Prop :=
  (p.1 - q.1).natAbs + (p.2 - q.2).natAbs = 1

/-- Consecutive snake body segments are grid-adjacent. -/
def Snake.linked (s : Snake) : Prop :=
  (s.body.map Block.pos).Chain' adjacent

/-! Theorems. -/

section Claims

open GameStatus

/-- Out-of-bounds refutation helper: a two-segment snake whose head is at the
right edge, facing right. -/
def edgeSnake : Snake := Snake.init 29 10 kRight

/-- C2 counterexample: for `edgeSnake`, `checkMove` is false although no body
segment at index 4 or later matches `next()` (the body has only 2 segments);
`next()` is simply out of bounds.  So "false iff collision with a segment at
index ≥ 4" fails in the right-to-left-complement direction. -/
theorem checkMove_iff_counterexample :
    edgeSnake.checkMove = false ∧
    ((edgeSnake.body.drop 4).any fun b =>
      b.x == edgeSnake.next.1 && b.y == edgeSnake.next.2) = false := by
  decide

/-- C2 (amended): `checkMove` returns false iff `next()` is out of the grid
bounds or `next()` equals the position of a body segment at index 4 or later;
in particular segments at indices 0-3 alone never make it false. -/
theorem checkMove_false_iff (s : Snake) :
    s.checkMove = false ↔
      (s.next.1 < 0 ∨ s.next.1 ≥ rows ∨ s.next.2 < 0 ∨ s.next.2 ≥ cols) ∨
      ∃ b ∈ s.body.drop 4, b.x = s.next.1 ∧ b.y = s.next.2 := by
  unfold Snake.checkMove
  by_cases hb : s.next.1 < 0 ∨ s.next.1 ≥ rows ∨ s.next.2 < 0 ∨ s.next.2 ≥ cols
  · simp only [hb, true_or, iff_true]
    have : (s.next.1 < 0 || s.next.1 ≥ rows || s.next.2 < 0 || s.next.2 ≥ cols) = true := by
      simpa [Bool.or_eq_true, decide_eq_true_eq, or_assoc] using hb
    simp [this]
  · have hfalse :
        (s.next.1 < 0 || s.next.1 ≥ rows || s.next.2 < 0 || s.next.2 ≥ cols) = false := by
      rw [Bool.eq_false_iff]
      intro hcontra
      exact hb (by simpa [Bool.or_eq_true, decide_eq_true_eq, or_assoc] using hcontra)
    simp [hfalse, hb, List.any_eq_true]

/-- Helper: for the four real directions, the opposite direction (xor 1)
shares the axis (shift right by 1). -/
theorem opposite_shares_axis : ∀ m : Nat, m < 4 → (m ^^^ 1) >>> 1 = m >>> 1 := by
  decide

/-- C3: requesting a direction on the same axis as the last committed move is
a no-op: the whole snake state (in particular its current direction) is
unchanged; for a committed direction among the four real directions this
covers the opposite direction in particular. -/
theorem updateDirection_shared_axis_noop (s : Snake) (d : Nat)
    (hax : d >>> 1 = s.lastMove >>> 1) :
    s.updateDirection d = s ∧
    (s.lastMove < 4 → s.updateDirection (s.lastMove ^^^ 1) = s) := by
  constructor
  · simp [Snake.updateDirection, hax]
  · intro h4
    simp [Snake.updateDirection, opposite_shares_axis s.lastMove h4]

/-- C3 witness: with last committed move right, requesting left (shared axis,
the opposite direction) leaves the snake unchanged. -/
theorem updateDirection_shared_axis_noop_witness :
    (Snake.init 10 10 kRight).updateDirection kLeft = Snake.init 10 10 kRight :=
  (updateDirection_shared_axis_noop (Snake.init 10 10 kRight) kLeft (by decide)).1

/-- C8: after `extend()` the body is one segment longer, the new head sits at
`next()` in the head color, the previous head is recolored to the body color
(and the two colors differ), and the current direction is committed as the
last move. -/
theorem extend_spec (s : Snake) (b : Block) (t : List Block)
    (h : s.body = b :: t) :
    s.extend.body.length = s.body.length + 1 ∧
    s.extend.body =
      (⟨s.next.1, s.next.2, snakeHeadColor⟩ : Block) ::
        { b with color := snakeBodyColor } :: t ∧
    snakeHeadColor ≠ snakeBodyColor ∧
    s.extend.lastMove = s.direction := by
  refine ⟨?_, ?_, by decide, rfl⟩
  · simp [Snake.extend, h]
  · simp [Snake.extend, h]

/-- C8 witness: `extend` on the freshly constructed snake. -/
theorem extend_spec_witness :
    (Snake.init 10 10 kRight).extend.body.length =
        (Snake.init 10 10 kRight).body.length + 1 ∧
    (Snake.init 10 10 kRight).extend.body =
      (⟨(Snake.init 10 10 kRight).next.1, (Snake.init 10 10 kRight).next.2,
          snakeHeadColor⟩ : Block) ::
        { (⟨10, 10, snakeHeadColor⟩ : Block) with color := snakeBodyColor } ::
          [⟨9, 10, snakeBodyColor⟩] ∧
    snakeHeadColor ≠ snakeBodyColor ∧
    (Snake.init 10 10 kRight).extend.lastMove =
      (Snake.init 10 10 kRight).direction :=
  extend_spec (Snake.init 10 10 kRight) ⟨10, 10, snakeHeadColor⟩
    [⟨9, 10, snakeBodyColor⟩] (by decide)

/-- Helper: the occupied-cell multiset of a nonempty block list is the last
cell together with the cells of the list without its last element. -/
theorem posMultiset_eq_dropLast_add (l : List Block) (hl : l ≠ []) :
    posMultiset l =
      (l.getLastD ⟨0, 0, snakeBodyColor⟩).pos ::ₘ posMultiset l.dropLast := by
  obtain ⟨A, a, rfl⟩ : ∃ A a, l = A ++ [a] :=
    ⟨l.dropLast, l.getLast hl, (List.dropLast_append_getLast hl).symm⟩
  rw [List.dropLast_concat, List.getLastD_concat]
  unfold posMultiset
  rw [List.map_append, ← Multiset.coe_add]
  simp only [List.map_cons, List.map_nil, Multiset.coe_singleton]
  rw [add_comm, Multiset.singleton_add]

/-- Helper: dropping the last block removes one copy of its cell from the
occupied-cell multiset. -/
theorem posMultiset_dropLast_eq_erase (l : List Block) (hl : l ≠ []) :
    posMultiset l.dropLast =
      (posMultiset l).erase ((l.getLastD ⟨0, 0, snakeBodyColor⟩).pos) := by
  rw [posMultiset_eq_dropLast_add l hl, Multiset.erase_cons_head]

/-- Helper: `extend` prepends the cell `next()` to the occupied multiset. -/
theorem posMultiset_extend (s : Snake) (b : Block) (t : List Block)
    (h : s.body = b :: t) :
    posMultiset s.extend.body = s.next ::ₘ posMultiset s.body := by
  simp [Snake.extend, posMultiset, h, Block.pos]

/-- Helper: `extend` does not change the cell of the last body segment. -/
theorem extend_getLastD_pos (s : Snake) (b : Block) (t : List Block)
    (h : s.body = b :: t) :
    (s.extend.body.getLastD ⟨0, 0, snakeBodyColor⟩).pos =
      (s.body.getLastD ⟨0, 0, snakeBodyColor⟩).pos := by
  cases t with
  | nil => simp [Snake.extend, h, List.getLastD_cons, Block.pos]
  | cons c t2 => simp [Snake.extend, h, List.getLastD_cons]

/-- Helper: the last segment's cell occurs in the occupied multiset. -/
theorem getLastD_pos_mem (l : List Block) (hl : l ≠ []) :
    (l.getLastD ⟨0, 0, snakeBodyColor⟩).pos ∈ posMultiset l := by
  rw [posMultiset_eq_dropLast_add l hl]
  exact Multiset.mem_cons_self _ _

/-- C7: `move()` is exactly `extend()` followed by dropping the tail segment;
the body length is unchanged, and the occupied-cell multiset after `move()`
is the old one with `next()` added and one copy of the old tail cell
removed. -/
theorem move_spec (s : Snake) (b : Block) (t : List Block) (h : s.body = b :: t) :
    s.move = { s.extend with body := s.extend.body.dropLast } ∧
    s.move.body.length = s.body.length ∧
    posMultiset s.move.body =
      s.next ::ₘ (posMultiset s.body).erase
        ((s.body.getLastD ⟨0, 0, snakeBodyColor⟩).pos) := by
  have hext : s.extend.body =
      (⟨s.next.1, s.next.2, snakeHeadColor⟩ : Block) ::
        { b with color := snakeBodyColor } :: t := by
    simp [Snake.extend, h]
  refine ⟨rfl, ?_, ?_⟩
  · show s.extend.body.dropLast.length = s.body.length
    rw [List.length_dropLast, hext, h]
    simp
  · show posMultiset s.extend.body.dropLast = _
    rw [posMultiset_dropLast_eq_erase _ (by simp [hext]),
      posMultiset_extend s b t h, extend_getLastD_pos s b t h]
    have hmem : (s.body.getLastD ⟨0, 0, snakeBodyColor⟩).pos ∈ posMultiset s.body :=
      getLastD_pos_mem s.body (by simp [h])
    by_cases hnp : (s.body.getLastD ⟨0, 0, snakeBodyColor⟩).pos = s.next
    · rw [hnp, Multiset.erase_cons_head, Multiset.cons_erase (hnp ▸ hmem)]
    · rw [Multiset.erase_cons_tail _ (Ne.symm hnp)]

/-- C7 witness: `move` on the freshly constructed two-segment snake. -/
theorem move_spec_witness :
    (Snake.init 10 10 kRight).move =
      { (Snake.init 10 10 kRight).extend with
        body := (Snake.init 10 10 kRight).extend.body.dropLast } ∧
    (Snake.init 10 10 kRight).move.body.length =
      (Snake.init 10 10 kRight).body.length ∧
    posMultiset (Snake.init 10 10 kRight).move.body =
      (Snake.init 10 10 kRight).next ::ₘ
        (posMultiset (Snake.init 10 10 kRight).body).erase
          (((Snake.init 10 10 kRight).body.getLastD ⟨0, 0, snakeBodyColor⟩).pos) :=
  move_spec (Snake.init 10 10 kRight) ⟨10, 10, snakeHeadColor⟩
    [⟨9, 10, snakeBodyColor⟩] (by decide)

/-- Helper: each of the four real directions steps by exactly one cell. -/
theorem delta_unit : ∀ d : Nat, d < 4 → (kDx d).natAbs + (kDy d).natAbs = 1 := by
  decide

/-- Helper: the opposite of a real direction is a real direction. -/
theorem verse_lt : ∀ d : Nat, d < 4 → d ^^^ 1 < 4 := by
  decide

instance : DecidableRel adjacent := fun p q =>
  inferInstanceAs (Decidable ((p.1 - q.1).natAbs + (p.2 - q.2).natAbs = 1))

instance (s : Snake) : Decidable s.linked :=
  inferInstanceAs (Decidable (List.Chain' adjacent _))

/-- C10: consecutive body segments are grid-adjacent in every reachable snake
state: the constructor establishes the property and `extend()` and `move()`
preserve it, for any of the four real directions. -/
theorem linked_invariant :
    (∀ (x y : Int) (d : Nat), d < 4 → (Snake.init x y d).linked) ∧
    (∀ s : Snake, s.direction < 4 → s.linked → s.extend.linked) ∧
    (∀ s : Snake, s.direction < 4 → s.linked → s.move.linked) := by
  have hext : ∀ s : Snake, s.direction < 4 → s.linked → s.extend.linked := by
    intro s hd hl
    cases hbody : s.body with
    | nil =>
      unfold Snake.linked
      simp [Snake.extend, hbody]
    | cons b t =>
      have hb2 : s.extend.body =
          (⟨s.next.1, s.next.2, snakeHeadColor⟩ : Block) ::
            { b with color := snakeBodyColor } :: t := by
        simp [Snake.extend, hbody]
      have hnext : s.next = (b.x + kDx s.direction, b.y + kDy s.direction) := by
        simp [Snake.next, hbody]
      unfold Snake.linked at hl ⊢
      rw [hb2]
      simp only [List.map_cons, Block.pos, List.chain'_cons]
      constructor
      · have hu := delta_unit s.direction hd
        rw [hnext]
        show ((b.x + kDx s.direction) - b.x).natAbs +
          ((b.y + kDy s.direction) - b.y).natAbs = 1
        omega
      · rw [hbody] at hl
        simpa [Block.pos] using hl
  refine ⟨?_, hext, ?_⟩
  · intro x y d hd
    have hv := delta_unit (d ^^^ 1) (verse_lt d hd)
    unfold Snake.linked Snake.init
    simp only [List.map_cons, List.map_nil, Block.pos]
    rw [List.chain'_pair]
    show (x - (x + kDx (d ^^^ 1))).natAbs + (y - (y + kDy (d ^^^ 1))).natAbs = 1
    omega
  · intro s hd hl
    have h1 := hext s hd hl
    unfold Snake.linked at h1 ⊢
    show List.Chain' adjacent (s.extend.body.dropLast.map Block.pos)
    rw [List.map_dropLast]
    exact h1.init

/-- C10 witness: the adjacency invariant at the constructed snake, after
`extend` and after `move`. -/
theorem linked_invariant_witness :
    (Snake.init 10 10 kRight).linked ∧
    (Snake.init 10 10 kRight).extend.linked ∧
    (Snake.init 10 10 kRight).move.linked :=
  ⟨linked_invariant.1 10 10 kRight (by decide),
   linked_invariant.2.1 (Snake.init 10 10 kRight) (by decide)
     (linked_invariant.1 10 10 kRight (by decide)),
   linked_invariant.2.2 (Snake.init 10 10 kRight) (by decide)
     (linked_invariant.1 10 10 kRight (by decide))⟩

/-- Helper: unfolding of a failed occupancy test. -/
theorem blockExist_eq_false_iff (food : Block) (body : List Block) (x y : Int) :
    blockExist food body x y = false ↔
      ¬(x = food.x ∧ y = food.y) ∧ ∀ b ∈ body, ¬(b.x = x ∧ b.y = y) := by
  simp [blockExist, not_or, List.any_eq_true, not_and, not_exists]

/-- Helper: a successful food relocation passed the occupancy test. -/
theorem updateFood_blockExist :
    ∀ (samples : List (ℚ × ℚ)) (food f : Block) (body : List Block),
      updateFood food body samples = some f →
      blockExist food body f.x f.y = false ∧ f.color = food.color := by
  intro samples
  induction samples with
  | nil =>
    intro food f body h
    simp [updateFood] at h
  | cons p rest ih =>
    intro food f body h
    obtain ⟨qx, qy⟩ := p
    rw [updateFood] at h
    by_cases hb :
        blockExist food body (random 0 (rows - 1) qx) (random 0 (cols - 1) qy) = true
    · rw [if_pos hb] at h
      exact ih food f body h
    · rw [if_neg hb] at h
      cases h
      exact ⟨Bool.not_eq_true _ ▸ hb, rfl⟩

/-- Helper: with a unit-interval sample, `random 0 29` lands in `[0, 30)`. -/
theorem random_unit_bounds (q : ℚ) (h0 : 0 ≤ q) (h1 : q < 1) :
    0 ≤ random 0 29 q ∧ random 0 29 q < 30 := by
  unfold random
  have h30 : ((29 : Int) : ℚ) - ((0 : Int) : ℚ) + 1 = 30 := by norm_num
  rw [h30]
  constructor
  · have hq : ((0 : Int) : ℚ) ≤ q * 30 := by push_cast; nlinarith
    have := Int.le_floor.mpr hq
    omega
  · have hq : q * 30 < ((30 : Int) : ℚ) := by push_cast; nlinarith
    have := Int.floor_lt.mpr hq
    omega

/-- C6: whenever the food-relocation loop terminates, the new food cell is on
no snake segment, differs from the food cell being replaced, and lies inside
the grid (given that every random sample is in the unit interval, as
`Math.random()` guarantees). -/
theorem updateFood_correct :
    ∀ (samples : List (ℚ × ℚ)) (food f : Block) (body : List Block),
      (∀ p ∈ samples, 0 ≤ p.1 ∧ p.1 < 1 ∧ 0 ≤ p.2 ∧ p.2 < 1) →
      updateFood food body samples = some f →
      (∀ b ∈ body, ¬(b.x = f.x ∧ b.y = f.y)) ∧
      ¬(f.x = food.x ∧ f.y = food.y) ∧
      0 ≤ f.x ∧ f.x < rows ∧ 0 ≤ f.y ∧ f.y < cols := by
  intro samples
  induction samples with
  | nil =>
    intro food f body hq h
    simp [updateFood] at h
  | cons p rest ih =>
    intro food f body hq h
    obtain ⟨qx, qy⟩ := p
    have hqx := hq (qx, qy) (List.mem_cons_self _ _)
    rw [updateFood] at h
    by_cases hb :
        blockExist food body (random 0 (rows - 1) qx) (random 0 (cols - 1) qy) = true
    · rw [if_pos hb] at h
      exact ih food f body (fun p hp => hq p (List.mem_cons_of_mem _ hp)) h
    · rw [if_neg hb] at h
      cases h
      have hbe := blockExist_eq_false_iff food body (random 0 (rows - 1) qx)
        (random 0 (cols - 1) qy) |>.mp (Bool.not_eq_true _ ▸ hb)
      have hx : (29 : Int) = rows - 1 := by norm_num [rows]
      have hy : (29 : Int) = cols - 1 := by norm_num [cols]
      have hbx := random_unit_bounds qx hqx.1 hqx.2.1
      have hby := random_unit_bounds qy hqx.2.2.1 hqx.2.2.2
      rw [hx] at hbx
      rw [hy] at hby
      refine ⟨hbe.2, hbe.1, ?_, ?_, ?_, ?_⟩
      · exact hbx.1
      · show random 0 (rows - 1) qx < rows
        have : (30 : Int) = rows := by norm_num [rows]
        omega
      · exact hby.1
      · show random 0 (cols - 1) qy < cols
        have : (30 : Int) = cols := by norm_num [cols]
        omega

/-- C6 witness: one rejected sample (it hits the snake head cell scaled to
`(21, 21)`... actually `(7/10, 7/10)` lands on the free cell `(21, 21)`) and
the relocated food. -/
theorem updateFood_correct_witness :
    (∀ b ∈ (Snake.init 10 10 kRight).body,
      ¬(b.x = (mkFood 21 21).x ∧ b.y = (mkFood 21 21).y)) ∧
    ¬((mkFood 21 21).x = (mkFood 15 15).x ∧ (mkFood 21 21).y = (mkFood 15 15).y) ∧
    0 ≤ (mkFood 21 21).x ∧ (mkFood 21 21).x < rows ∧
    0 ≤ (mkFood 21 21).y ∧ (mkFood 21 21).y < cols :=
  updateFood_correct [(7/10, 7/10)] (mkFood 15 15) (mkFood 21 21)
    (Snake.init 10 10 kRight).body
    (by intro p hp; simp at hp; subst hp; norm_num)
    (by norm_num [updateFood, random, blockExist, Snake.init, mkFood, rows, cols,
      kDx, kDy, kRight, (by decide : (3 : Nat) ^^^ 1 = 2)])

/-- Helper: unfolding of a successful food test. -/
theorem eatFood_eq_true_iff (s : Snake) (food : Block) :
    s.eatFood food = true ↔ s.next.1 = food.x ∧ s.next.2 = food.y := by
  simp [Snake.eatFood]

/-- Helper: every block of the extended body is the new head at `next()` or
sits at the cell of a block of the old body. -/
theorem pos_mem_extend {s : Snake} {b : Block} (hb : b ∈ s.extend.body) :
    (b.x = s.next.1 ∧ b.y = s.next.2) ∨ ∃ c ∈ s.body, c.x = b.x ∧ c.y = b.y := by
  cases hbody : s.body with
  | nil =>
    have hb2 : s.extend.body = [⟨s.next.1, s.next.2, snakeHeadColor⟩] := by
      simp [Snake.extend, hbody]
    rw [hb2] at hb
    simp at hb
    subst hb
    exact Or.inl ⟨rfl, rfl⟩
  | cons c t =>
    have hb2 : s.extend.body =
        (⟨s.next.1, s.next.2, snakeHeadColor⟩ : Block) ::
          { c with color := snakeBodyColor } :: t := by
      simp [Snake.extend, hbody]
    rw [hb2] at hb
    rcases List.mem_cons.mp hb with h1 | hb
    · subst h1
      exact Or.inl ⟨rfl, rfl⟩
    rcases List.mem_cons.mp hb with h2 | hb
    · subst h2
      exact Or.inr ⟨c, List.mem_cons_self _ _, rfl, rfl⟩
    · exact Or.inr ⟨b, List.mem_cons_of_mem _ hb, rfl, rfl⟩

/-- Helper: the eat branch leaves the relocated food off the extended body:
the relocation rejects the old food cell, which is exactly where the new head
goes, and rejects every old body cell. -/
theorem foodFreeOn_extend_of_updateFood (s : Snake) (food f : Block)
    (samps : List (ℚ × ℚ)) (heat : s.eatFood food = true)
    (hf : updateFood food s.body samps = some f) :
    foodFreeOn f s.extend.body := by
  have hbe := (blockExist_eq_false_iff food s.body f.x f.y).mp
    (updateFood_blockExist samps food f s.body hf).1
  have hnext := (eatFood_eq_true_iff s food).mp heat
  intro b hb
  rcases pos_mem_extend hb with hhead | ⟨c, hc, hcx, hcy⟩
  · intro hcontr
    exact hbe.1 ⟨by rw [← hcontr.1, hhead.1, hnext.1],
      by rw [← hcontr.2, hhead.2, hnext.2]⟩
  · intro hcontr
    exact hbe.2 c hc ⟨by rw [hcx, hcontr.1], by rw [hcy, hcontr.2]⟩

/-- Helper: the move branch cannot put the head on the food (the eat test
just failed) and keeps every other cell, so the food stays off the body. -/
theorem foodFreeOn_move (s : Snake) (food : Block)
    (hff : foodFreeOn food s.body) (heat : s.eatFood food = false) :
    foodFreeOn food s.move.body := by
  intro b hb
  have hb2 : b ∈ s.extend.body := (List.dropLast_sublist _).subset hb
  rcases pos_mem_extend hb2 with hhead | ⟨c, hc, hcx, hcy⟩
  · intro hcontr
    have : s.eatFood food = true :=
      (eatFood_eq_true_iff s food).mpr
        ⟨by rw [← hhead.1, hcontr.1], by rw [← hhead.2, hcontr.2]⟩
    rw [this] at heat
    cases heat
  · intro hcontr
    exact hff c hc ⟨by rw [hcx, hcontr.1], by rw [hcy, hcontr.2]⟩

/-- Helper: the per-frame tick loop preserves the food/snake disjointness
invariant, for every tick count and every random-sample supply. -/
theorem runTicks_foodFree :
    ∀ (n : Nat) (samples : List (List (ℚ × ℚ))) (gs : GameState) (r : TickResult),
      gs.foodFree → runTicks gs n samples = some r → r.state.foodFree := by
  intro n
  induction n with
  | zero =>
    intro samples gs r h hr
    rw [runTicks] at hr
    cases hr
    exact h
  | succ n ih =>
    intro samples gs r h hr
    rw [runTicks] at hr
    by_cases he : gs.snake.eatFood gs.food = true
    · rw [if_pos he] at hr
      cases hu : updateFood gs.food gs.snake.body (samples.headD []) with
      | none => simp only [hu] at hr; cases hr
      | some f =>
        simp only [hu] at hr
        cases hrt : runTicks (eatStep gs f) n samples.tail with
        | none => simp only [hrt] at hr; cases hr
        | some r2 =>
          simp only [hrt] at hr
          cases hr
          exact ih samples.tail (eatStep gs f) r2
            (foodFreeOn_extend_of_updateFood gs.snake gs.food f _ he hu) hrt
    · rw [if_neg he] at hr
      have he2 : gs.snake.eatFood gs.food = false := by
        cases hb : gs.snake.eatFood gs.food
        · rfl
        · exact absurd hb he
      by_cases hm : gs.snake.checkMove = true
      · rw [if_pos hm] at hr
        cases hrt : runTicks (moveStep gs) n samples.tail with
        | none => simp only [hrt] at hr; cases hr
        | some r2 =>
          simp only [hrt] at hr
          cases hr
          exact ih samples.tail (moveStep gs) r2
            (foodFreeOn_move gs.snake gs.food h he2) hrt
      · rw [if_neg hm] at hr
        cases hr
        exact h

/-- Helper: a whole frame preserves the food/snake disjointness invariant. -/
theorem loop_foodFree (gs : GameState) (t : Nat)
    (samples : List (List (ℚ × ℚ))) (r : FrameResult)
    (h : gs.foodFree) (hl : loop gs t samples = some r) : r.state.foodFree := by
  unfold loop at hl
  by_cases hs : gs.gameStatus = .ended ∨ gs.gameStatus = .pause
  · rw [if_pos hs] at hl
    cases hl
    exact h
  · rw [if_neg hs] at hl
    have hbase : (frameBase gs t).foodFree := by
      unfold frameBase
      by_cases hst : gs.start = none
      · rw [if_pos hst]; exact h
      · rw [if_neg hst]; exact h
    cases hrt : runTicks (frameBase gs t)
        ((t - (frameBase gs t).prevTime) / 250) samples with
    | none => simp only [hrt] at hl; cases hl
    | some r2 =>
      simp only [hrt] at hl
      have h2 := runTicks_foodFree _ _ _ _ hbase hrt
      by_cases he : r2.early = true
      · rw [if_pos he] at hl; cases hl; exact h2
      · rw [if_neg he] at hl
        by_cases ht : (t - (frameBase gs t).prevTime) / 250 ≥ 1
        · rw [if_pos ht] at hl; cases hl; exact h2
        · rw [if_neg ht] at hl; cases hl; exact h2

/-- Helper: `resetGame` re-establishes the invariant with the fixed snake at
`(10, 10)` and food at `(15, 15)`. -/
theorem resetGame_foodFree (gs : GameState) : (resetGame gs).foodFree := by
  show foodFreeOn (mkFood 15 15) (Snake.init 10 10 kRight).body
  decide

/-- C1: the food cell is never occupied by a snake segment: the invariant
holds initially and is preserved by every frame (with any tick count and any
terminating random supply) and by every button, the eat branch included,
where the food relocated by `updateFood` can coincide neither with the cell
the new head is about to occupy (the old food cell) nor with any other body
cell. -/
theorem food_off_snake_invariant :
    initState.foodFree ∧
    ∀ (gs gs' : GameState) (op : GameOp),
      gs.foodFree → step gs op = some gs' → gs'.foodFree := by
  constructor
  · exact resetGame_foodFree _
  · intro gs gs' op h hstep
    cases op with
    | frame t samples =>
      simp only [step] at hstep
      cases hl : loop gs t samples with
      | none => rw [hl] at hstep; cases hstep
      | some r =>
        rw [hl] at hstep
        simp only [Option.map_some', Option.some.injEq] at hstep
        subst hstep
        exact loop_foodFree gs t samples r h hl
    | start =>
      cases hstep
      unfold pressStart
      by_cases hg : gs.gameStatus ≠ .ended
      · rw [if_pos hg]; exact h
      · rw [if_neg hg]; exact resetGame_foodFree gs
    | pause =>
      cases hstep
      unfold pressPause
      by_cases hg : gs.gameStatus ≠ .run
      · rw [if_pos hg]; exact h
      · rw [if_neg hg]; exact h
    | resume =>
      cases hstep
      unfold pressResume
      by_cases hg : gs.gameStatus ≠ .pause
      · rw [if_pos hg]; exact h
      · rw [if_neg hg]; exact h
    | restart =>
      cases hstep
      unfold pressRestart
      by_cases hg : gs.gameStatus ≠ .run
      · rw [if_pos hg]; exact h
      · rw [if_neg hg]; exact resetGame_foodFree gs
    | stop =>
      cases hstep
      unfold pressEnd
      by_cases hg : gs.gameStatus = .ended
      · rw [if_pos hg]; exact h
      · rw [if_neg hg]; exact resetGame_foodFree _

/-- A Running state right after the first frame of a fresh game. -/
def runState : GameState :=
  { initState with gameStatus := .run, start := some 0 }

/-- The state one frame (one move tick) after `runState`. -/
def movedState : GameState :=
  { initState with
    gameStatus := .run
    start := some 0
    snake := (Snake.init 10 10 kRight).move
    prevTime := 300 }

/-- C1 witness: one concrete frame (one move tick) from a fresh Running
state keeps the invariant. -/
theorem food_off_snake_invariant_witness : movedState.foodFree :=
  food_off_snake_invariant.2 runState movedState (.frame 300 [])
    (by decide) (by decide)

/-- Helper: one frame's tick loop never decreases the highest score. -/
theorem runTicks_highest_mono :
    ∀ (n : Nat) (samples : List (List (ℚ × ℚ))) (gs : GameState) (r : TickResult),
      runTicks gs n samples = some r → gs.highestScore ≤ r.state.highestScore := by
  intro n
  induction n with
  | zero =>
    intro samples gs r hr
    rw [runTicks] at hr
    cases hr
    exact Nat.le_refl _
  | succ n ih =>
    intro samples gs r hr
    rw [runTicks] at hr
    by_cases he : gs.snake.eatFood gs.food = true
    · rw [if_pos he] at hr
      cases hu : updateFood gs.food gs.snake.body (samples.headD []) with
      | none => simp only [hu] at hr; cases hr
      | some f =>
        simp only [hu] at hr
        cases hrt : runTicks (eatStep gs f) n samples.tail with
        | none => simp only [hrt] at hr; cases hr
        | some r2 =>
          simp only [hrt] at hr
          cases hr
          exact Nat.le_trans (Nat.le_max_right _ _)
            (ih samples.tail (eatStep gs f) r2 hrt)
    · rw [if_neg he] at hr
      by_cases hm : gs.snake.checkMove = true
      · rw [if_pos hm] at hr
        cases hrt : runTicks (moveStep gs) n samples.tail with
        | none => simp only [hrt] at hr; cases hr
        | some r2 =>
          simp only [hrt] at hr
          cases hr
          exact ih samples.tail (moveStep gs) r2 hrt
      · rw [if_neg hm] at hr
        cases hr
        exact Nat.le_refl _

/-- Helper: a whole frame never decreases the highest score. -/
theorem loop_highest_mono (gs : GameState) (t : Nat)
    (samples : List (List (ℚ × ℚ))) (r : FrameResult)
    (hl : loop gs t samples = some r) :
    gs.highestScore ≤ r.state.highestScore := by
  unfold loop at hl
  by_cases hs : gs.gameStatus = .ended ∨ gs.gameStatus = .pause
  · rw [if_pos hs] at hl
    cases hl
    exact Nat.le_refl _
  · rw [if_neg hs] at hl
    have hbase : gs.highestScore = (frameBase gs t).highestScore := by
      unfold frameBase
      by_cases hst : gs.start = none
      · rw [if_pos hst]
      · rw [if_neg hst]
    cases hrt : runTicks (frameBase gs t)
        ((t - (frameBase gs t).prevTime) / 250) samples with
    | none => simp only [hrt] at hl; cases hl
    | some r2 =>
      simp only [hrt] at hl
      have h2 := runTicks_highest_mono _ _ _ _ hrt
      rw [hbase]
      by_cases he : r2.early = true
      · rw [if_pos he] at hl; cases hl; exact h2
      · rw [if_neg he] at hl
        by_cases ht : (t - (frameBase gs t).prevTime) / 250 ≥ 1
        · rw [if_pos ht] at hl; cases hl; exact h2
        · rw [if_neg ht] at hl; cases hl; exact h2

/-- Helper: no single operation decreases the highest score. -/
theorem step_highest_mono (gs gs' : GameState) (op : GameOp)
    (h : step gs op = some gs') : gs.highestScore ≤ gs'.highestScore := by
  cases op with
  | frame t samples =>
    simp only [step] at h
    cases hl : loop gs t samples with
    | none => rw [hl] at h; cases h
    | some r =>
      rw [hl] at h
      simp only [Option.map_some', Option.some.injEq] at h
      subst h
      exact loop_highest_mono gs t samples r hl
  | start =>
    cases h
    unfold pressStart
    by_cases hg : gs.gameStatus ≠ .ended
    · simp only [if_pos hg]; exact Nat.le_refl _
    · simp only [if_neg hg]; exact Nat.le_refl _
  | pause =>
    cases h
    unfold pressPause
    by_cases hg : gs.gameStatus ≠ .run
    · simp only [if_pos hg]; exact Nat.le_refl _
    · simp only [if_neg hg]; exact Nat.le_refl _
  | resume =>
    cases h
    unfold pressResume
    by_cases hg : gs.gameStatus ≠ .pause
    · simp only [if_pos hg]; exact Nat.le_refl _
    · simp only [if_neg hg]; exact Nat.le_refl _
  | restart =>
    cases h
    unfold pressRestart
    by_cases hg : gs.gameStatus ≠ .run
    · simp only [if_pos hg]; exact Nat.le_refl _
    · simp only [if_neg hg]; exact Nat.le_refl _
  | stop =>
    cases h
    unfold pressEnd
    by_cases hg : gs.gameStatus = .ended
    · simp only [if_pos hg]; exact Nat.le_refl _
    · simp only [if_neg hg]; exact Nat.le_refl _

/-- Helper: no operation sequence decreases the highest score. -/
theorem steps_highest_mono :
    ∀ (ops : List GameOp) (gs gs' : GameState),
      steps gs ops = some gs' → gs.highestScore ≤ gs'.highestScore := by
  intro ops
  induction ops with
  | nil =>
    intro gs gs' h
    rw [steps] at h
    cases h
    exact Nat.le_refl _
  | cons op ops ih =>
    intro gs gs' h
    rw [steps] at h
    cases hst : step gs op with
    | none => simp only [hst] at h; cases h
    | some g2 =>
      simp only [hst] at h
      exact Nat.le_trans (step_highest_mono gs g2 op hst) (ih g2 gs' h)

/-- C4: an eat tick sets the highest score to the maximum of the incremented
score and the old highest score; `resetGame` (used by start, restart and end)
resets the current score to 0 and leaves the highest score untouched; and the
highest score is non-decreasing across every operation sequence within one
process lifetime. -/
theorem highestScore_monotone :
    (∀ (gs : GameState) (f : Block),
      (eatStep gs f).highestScore = Nat.max (gs.score + 1) gs.highestScore) ∧
    (∀ gs : GameState,
      (resetGame gs).score = 0 ∧ (resetGame gs).highestScore = gs.highestScore) ∧
    ∀ (ops : List GameOp) (gs gs' : GameState),
      steps gs ops = some gs' → gs.highestScore ≤ gs'.highestScore :=
  ⟨fun _ _ => rfl, fun _ => ⟨rfl, rfl⟩, steps_highest_mono⟩

/-- C4 witness: starting a game from the initial state keeps the highest
score. -/
theorem highestScore_monotone_witness :
    initState.highestScore ≤ (pressStart initState).highestScore :=
  highestScore_monotone.2.2 [GameOp.start] initState (pressStart initState)
    (by decide)

/-- Helper: a tick-loop result that returned early carries exactly one alert
and the ended status; one that did not carries no alert. -/
theorem runTicks_alerts :
    ∀ (n : Nat) (samples : List (List (ℚ × ℚ))) (gs : GameState) (r : TickResult),
      runTicks gs n samples = some r →
      (r.early = true → r.alerts = 1 ∧ r.state.gameStatus = .ended) ∧
      (r.early = false → r.alerts = 0) := by
  intro n
  induction n with
  | zero =>
    intro samples gs r hr
    rw [runTicks] at hr
    cases hr
    constructor
    · intro h
      exact nomatch h
    · intro _
      rfl
  | succ n ih =>
    intro samples gs r hr
    rw [runTicks] at hr
    by_cases he : gs.snake.eatFood gs.food = true
    · rw [if_pos he] at hr
      cases hu : updateFood gs.food gs.snake.body (samples.headD []) with
      | none => simp only [hu] at hr; cases hr
      | some f =>
        simp only [hu] at hr
        cases hrt : runTicks (eatStep gs f) n samples.tail with
        | none => simp only [hrt] at hr; cases hr
        | some r2 =>
          simp only [hrt] at hr
          cases hr
          exact ih samples.tail (eatStep gs f) r2 hrt
    · rw [if_neg he] at hr
      by_cases hm : gs.snake.checkMove = true
      · rw [if_pos hm] at hr
        cases hrt : runTicks (moveStep gs) n samples.tail with
        | none => simp only [hrt] at hr; cases hr
        | some r2 =>
          simp only [hrt] at hr
          cases hr
          exact ih samples.tail (moveStep gs) r2 hrt
      · rw [if_neg hm] at hr
        cases hr
        exact ⟨fun _ => ⟨rfl, rfl⟩, fun h => nomatch h⟩

/-- C5: a frame in which a processed tick finds neither food nor a legal move
emits exactly one game-over notification, does not reschedule, and leaves the
status ended, after which any frame is a complete no-op (no mutation, no
alert, no reschedule); when the fatal tick is the first of the frame, exactly
one of the elapsed ticks is processed. -/
theorem game_over_frame :
    (∀ (gs : GameState) (t : Nat) (samples : List (List (ℚ × ℚ)))
      (r : FrameResult),
      loop gs t samples = some r → 1 ≤ r.alerts →
      r.alerts = 1 ∧ r.scheduled = false ∧ r.state.gameStatus = .ended ∧
      ∀ (t2 : Nat) (samples2 : List (List (ℚ × ℚ))),
        loop r.state t2 samples2 = some ⟨r.state, 0, 0, false⟩) ∧
    (∀ (gs : GameState) (t : Nat) (samples : List (List (ℚ × ℚ))),
      gs.gameStatus = .run → gs.start ≠ none → 1 ≤ (t - gs.prevTime) / 250 →
      gs.snake.eatFood gs.food = false → gs.snake.checkMove = false →
      loop gs t samples =
        some ⟨{ gs with gameStatus := .ended }, 1, 1, false⟩) := by
  constructor
  · intro gs t samples r hl ha
    unfold loop at hl
    by_cases hs : gs.gameStatus = .ended ∨ gs.gameStatus = .pause
    · rw [if_pos hs] at hl
      cases hl
      exact absurd ha (Nat.not_succ_le_zero 0)
    · rw [if_neg hs] at hl
      cases hrt : runTicks (frameBase gs t)
          ((t - (frameBase gs t).prevTime) / 250) samples with
      | none => simp only [hrt] at hl; cases hl
      | some r2 =>
        simp only [hrt] at hl
        have halt := runTicks_alerts _ _ _ _ hrt
        by_cases he : r2.early = true
        · rw [if_pos he] at hl
          cases hl
          obtain ⟨ha1, hstat⟩ := halt.1 he
          refine ⟨ha1, rfl, hstat, ?_⟩
          intro t2 samples2
          unfold loop
          rw [if_pos (Or.inl hstat)]
        · rw [if_neg he] at hl
          have h0 := halt.2 (by cases hb : r2.early with
            | false => rfl
            | true => exact absurd hb he)
          by_cases ht : (t - (frameBase gs t).prevTime) / 250 ≥ 1
          · rw [if_pos ht] at hl
            cases hl
            exact absurd ha (by simp [h0])
          · rw [if_neg ht] at hl
            cases hl
            exact absurd ha (by simp [h0])
  · intro gs t samples hrun hstart hticks heat hmove
    unfold loop
    rw [if_neg (by simp [hrun])]
    have hfb : frameBase gs t = gs := by
      unfold frameBase
      rw [if_neg hstart]
    rw [hfb]
    obtain ⟨k, hk⟩ : ∃ k, (t - gs.prevTime) / 250 = k + 1 :=
      ⟨(t - gs.prevTime) / 250 - 1, by omega⟩
    rw [hk, runTicks, if_neg (by simp [heat]), if_neg (by simp [hmove])]
    rfl

/-- A Running state about to die: head at the right edge (x = 29 = cols - 1),
facing right. -/
def gameOverState : GameState :=
  { initState with
    gameStatus := .run
    start := some 0
    snake := Snake.init 29 10 kRight }

/-- C5 witness: at time 900 (three elapsed ticks) the fatal first tick ends
the game with exactly one alert, exactly one processed tick and no
reschedule; a following frame in the ended status is a no-op. -/
theorem game_over_frame_witness :
    loop gameOverState 900 [] =
      some ⟨{ gameOverState with gameStatus := .ended }, 1, 1, false⟩ ∧
    loop { gameOverState with gameStatus := .ended } 1000 [] =
      some ⟨{ gameOverState with gameStatus := .ended }, 0, 0, false⟩ := by
  have hA := game_over_frame.2 gameOverState 900 [] (by decide) (by decide)
    (by decide) (by decide) (by decide)
  have hB := (game_over_frame.1 gameOverState 900 []
    ⟨{ gameOverState with gameStatus := .ended }, 1, 1, false⟩ hA
    (by decide)).2.2.2 1000 []
  exact ⟨hA, hB⟩

/-- C9 (amended): a Running frame whose start baseline is already set and in
which no full tick has elapsed leaves the whole state (snake, direction,
food, scores, status, prevTime) unchanged and only reschedules the next
frame. -/
theorem zero_tick_frame_noop (gs : GameState) (t : Nat)
    (samples : List (List (ℚ × ℚ)))
    (hrun : gs.gameStatus = .run) (hstart : gs.start ≠ none)
    (hticks : (t - gs.prevTime) / 250 = 0) :
    loop gs t samples = some ⟨gs, 0, 0, true⟩ := by
  unfold loop
  rw [if_neg (by simp [hrun])]
  have hfb : frameBase gs t = gs := by
    unfold frameBase
    rw [if_neg hstart]
  rw [hfb, hticks, runTicks]
  rfl

/-- A Running state with the baseline set and less than one tick elapsed by
time 200. -/
def resumedState : GameState :=
  { initState with
    gameStatus := .run
    start := some 0
    prevTime := 100 }

/-- C9 witness: a 100 ms frame (less than one 250 ms tick) changes nothing. -/
theorem zero_tick_frame_noop_witness :
    loop resumedState 200 [] = some ⟨resumedState, 0, 0, true⟩ :=
  zero_tick_frame_noop resumedState 200 [] (by decide) (by decide) (by decide)

/-- A Running state whose start baseline is unset, as right after the start
button or after pause then resume; prevTime holds the stale value 800. -/
def staleState : GameState :=
  { initState with
    gameStatus := .run
    prevTime := 800 }

/-- C9 counterexample: this Running frame satisfies the claim's hypothesis
(floor((time - prevTime) / 250) = floor(100 / 250) = 0) yet does not leave
prevTime unchanged: the first frame after start/resume re-baselines start and
prevTime to the current timestamp 900. -/
theorem zero_tick_frame_counterexample :
    staleState.gameStatus = .run ∧ (900 - staleState.prevTime) / 250 = 0 ∧
    Option.map (fun r => r.state.prevTime) (loop staleState 900 []) = some 900 ∧
    staleState.prevTime ≠ 900 := by
  decide

end Claims

end SnakeGame
